import Mathlib

/-!
Verification of the chunked English-to-Sinhala translation pipeline in
`src/app.py` (functions `translate_text` and `extract_text`, plus the
tab-1 guard that decides whether an extracted string is translated).

Text is modelled as `List Char`.  The external translation service
(`GoogleTranslator(...).translate`) is abstracted as a function
`Str → Except Str Str`: `Except.ok t` models a successful call returning
`t`, `Except.error e` models the call raising an exception whose
`str(e)` is `e`.  Python's `str.strip()` truthiness test is modelled
with `Char.isWhitespace`.
-/

/-- Text, as a list of characters. -/
abbrev Str := List Char

/-- `max_length = 4500` (src/app.py line 62). -/
def max_length : Nat := 4500

/-- Python's `not text or not text.strip()` / `chunk.strip()` falsity
test: the string is empty or consists only of whitespace. -/
def isBlank (s : Str) : Bool := s.all Char.isWhitespace

/-- The chunker, `[text[i:i+L] for i in range(0, len(text), L)]`
(src/app.py line 67): `range(0, n, L)` has `⌈n/L⌉` elements
`0, L, 2L, …` and the slice `text[i:i+L]` takes up to `L` characters
from offset `i`.  (`L = 0` would raise in Python; the program only ever
uses `L = 4500`, and this definition returns `[]` for `L = 0`.) -/
def chunkify (L : Nat) (s : Str) : List Str :=
  (List.range' 0 ((s.length + L - 1) / L) L).map fun i => (s.drop i).take L

/-- The fixed message returned on empty or whitespace-only input
(src/app.py line 58). -/
def emptyMsg : Str := "Please enter some text to translate.".data

/-- The string built by the `except` clause,
`f"Translation error: {str(e)}"` (src/app.py line 77). -/
def errMsg (e : Str) : Str := "Translation error: ".data ++ e

/-- The translation loop over the chunks (src/app.py lines 70-72): each
non-blank chunk is translated in order; a raised exception aborts the
loop (and the partial `translated` list is discarded by the `except`
clause). -/
def translateChunks (tr : Str → Except Str Str) : List Str → Except Str (List Str)
  | [] => Except.ok []
  | c :: cs =>
    if isBlank c then translateChunks tr cs
    else
      match tr c with
      | Except.error e => Except.error e
      | Except.ok t =>
        match translateChunks tr cs with
        | Except.error e => Except.error e
        | Except.ok ts => Except.ok (t :: ts)

/-- Instrumentation of the same loop: the ordered list of inputs passed
to `translator.translate`, including the call that raises (after which
no further calls happen). -/
def chunksCalls (tr : Str → Except Str Str) : List Str → List Str
  | [] => []
  | c :: cs =>
    if isBlank c then chunksCalls tr cs
    else
      match tr c with
      | Except.error _ => [c]
      | Except.ok _ => c :: chunksCalls tr cs

/-- `translate_text` (src/app.py lines 55-77): blank input returns the
fixed message; input of length at most 4500 is translated with a single
call; longer input is chunked, each non-blank chunk translated in
order, and the results joined with `" ".join(translated)` (line 74).
Any exception raised by the translator yields the
`"Translation error: …"` string. -/
def translate_text (tr : Str → Except Str Str) (text : Str) : Str :=
  if isBlank text then emptyMsg
  else if text.length ≤ max_length then
    match tr text with
    | Except.ok t => t
    | Except.error e => errMsg e
  else
    match translateChunks tr (chunkify max_length text) with
    | Except.ok ts => List.intercalate " ".data ts
    | Except.error e => errMsg e

/-- Instrumentation of `translate_text`: the ordered list of inputs on
which `translator.translate` is invoked. -/
def translateCalls (tr : Str → Except Str Str) (text : Str) : List Str :=
  if isBlank text then []
  else if text.length ≤ max_length then [text]
  else chunksCalls tr (chunkify max_length text)

/-- `max_length` unfolds to the literal `4500`. -/
@[simp] theorem max_length_eq : max_length = 4500 := rfl

/- ### Structural lemmas about the chunker -/

/-- The chunker yields no segments on empty input. -/
theorem chunkify_nil (L : Nat) : chunkify L [] = [] := by
  rcases Nat.eq_zero_or_pos L with h | h
  · subst h; rfl
  · unfold chunkify
    rw [List.length_nil, Nat.zero_add, Nat.div_eq_of_lt (Nat.sub_lt h Nat.one_pos)]
    rfl

/-- Ceiling-division recurrence used to peel one chunk off the front. -/
theorem ceilDiv_succ (L n : Nat) (hL : 0 < L) (hn : 0 < n) :
    (n + L - 1) / L = (n - L + L - 1) / L + 1 := by
  rcases Nat.le_total n L with h | h
  · have h1 : n - L = 0 := Nat.sub_eq_zero_of_le h
    rw [h1, Nat.zero_add, Nat.div_eq_of_lt (Nat.sub_lt hL Nat.one_pos)]
    exact Nat.div_eq_of_lt_le (by omega) (by omega)
  · have h1 : n + L - 1 = (n - L + L - 1) + L := by omega
    rw [h1, Nat.add_div_right _ hL]

/-- Peeling the first chunk: on nonempty input the chunker returns the
first `L` characters followed by the chunks of the rest. -/
theorem chunkify_cons (L : Nat) (hL : 0 < L) (s : Str) (hs : s ≠ []) :
    chunkify L s = s.take L :: chunkify L (s.drop L) := by
  have hn : 0 < s.length := List.length_pos.mpr hs
  unfold chunkify
  rw [List.length_drop, ceilDiv_succ L s.length hL hn, List.range'_succ, List.map_cons]
  rw [Nat.zero_add]
  have hshift : List.range' L ((s.length - L + L - 1) / L) L
      = (List.range' 0 ((s.length - L + L - 1) / L) L).map (L + ·) := by
    rw [List.map_add_range', Nat.add_zero]
  rw [hshift, List.map_map]
  congr 1
  simp

/-- Lossless split: concatenating the chunks in order reconstructs the
input exactly. -/
theorem chunkify_flatten (L : Nat) (hL : 0 < L) (s : Str) :
    (chunkify L s).flatten = s := by
  cases hs : s with
  | nil => simp [chunkify_nil]
  | cons c cs =>
    rw [chunkify_cons L hL (c :: cs) (by simp), List.flatten_cons,
        chunkify_flatten L hL ((c :: cs).drop L)]
    exact List.take_append_drop L (c :: cs)
termination_by s.length
decreasing_by
  subst hs; rw [List.length_drop]; simp; omega

/-- Every chunk has length at most `L`. -/
theorem chunkify_sizes (L : Nat) (s : Str) : ∀ c ∈ chunkify L s, c.length ≤ L := by
  intro c hc
  unfold chunkify at hc
  rw [List.mem_map] at hc
  obtain ⟨i, _, rfl⟩ := hc
  exact List.length_take_le L _

/-- The `i`-th chunk is exactly the slice `text[L*i : L*i + L]`:
chunks are contiguous, non-overlapping and in left-to-right order. -/
theorem chunkify_getElem (L : Nat) (s : Str) (i : Nat)
    (hi : i < (chunkify L s).length) :
    (chunkify L s)[i] = (s.drop (L * i)).take L := by
  unfold chunkify at hi ⊢
  rw [List.getElem_map, List.getElem_range', Nat.zero_add]

/-- The number of chunks is the ceiling of `length / L`. -/
theorem chunkify_count (L : Nat) (s : Str) :
    (chunkify L s).length = (s.length + L - 1) / L := by
  simp [chunkify]

/-- A nonempty input of length at most `L` yields exactly one chunk,
the whole input. -/
theorem chunkify_singleton (L : Nat) (hL : 0 < L) (s : Str) (hs : s ≠ [])
    (hlen : s.length ≤ L) : chunkify L s = [s] := by
  rw [chunkify_cons L hL s hs, List.take_of_length_le hlen,
      List.drop_eq_nil_of_le hlen, chunkify_nil]

/- ### Lemmas about the translation loop -/

/-- If the translator succeeds (with value `f c`) on every non-blank
chunk, the loop returns exactly the translations of the non-blank
chunks, in order, and calls the translator exactly on the non-blank
chunks, in order. -/
theorem translateChunks_all_ok (tr : Str → Except Str Str) (f : Str → Str)
    (cs : List Str) (h : ∀ c ∈ cs, isBlank c = false → tr c = Except.ok (f c)) :
    translateChunks tr cs = Except.ok ((cs.filter fun c => !isBlank c).map f)
    ∧ chunksCalls tr cs = cs.filter fun c => !isBlank c := by
  induction cs with
  | nil => exact ⟨rfl, rfl⟩
  | cons c cs ih =>
    obtain ⟨ih1, ih2⟩ := ih fun c' hc' => h c' (List.mem_cons_of_mem _ hc')
    cases hb : isBlank c with
    | true =>
      simp [translateChunks, chunksCalls, hb, ih1, ih2]
    | false =>
      have htr := h c (List.mem_cons_self c cs) hb
      simp [translateChunks, chunksCalls, hb, htr, ih1, ih2]

/- ### C1 -/

/-- C1: for every input text longer than `L = 4500`, the chunker's
segments each have length at most 4500, the `i`-th segment is the
contiguous slice of the input starting at offset `4500 * i` (so the
segments are contiguous, non-overlapping and in left-to-right order),
and their ordered concatenation reconstructs the input exactly. -/
theorem claim_C1_chunker_lossless (s : Str) (hs : 4500 < s.length) :
    (chunkify 4500 s).flatten = s
    ∧ (∀ c ∈ chunkify 4500 s, c.length ≤ 4500)
    ∧ ∀ i (hi : i < (chunkify 4500 s).length),
        (chunkify 4500 s)[i] = (s.drop (4500 * i)).take 4500 :=
  ⟨chunkify_flatten 4500 (by omega) s, chunkify_sizes 4500 s,
    fun i hi => chunkify_getElem 4500 s i hi⟩

/-- Witness for C1 at the concrete input of 4501 copies of `'a'`. -/
theorem claim_C1_chunker_lossless_witness :
    4500 < (List.replicate 4501 'a').length
    ∧ ((chunkify 4500 (List.replicate 4501 'a')).flatten = List.replicate 4501 'a'
      ∧ (∀ c ∈ chunkify 4500 (List.replicate 4501 'a'), c.length ≤ 4500)
      ∧ ∀ i (hi : i < (chunkify 4500 (List.replicate 4501 'a')).length),
          (chunkify 4500 (List.replicate 4501 'a'))[i]
            = ((List.replicate 4501 'a').drop (4500 * i)).take 4500) :=
  ⟨by simp only [List.length_replicate]; decide,
    claim_C1_chunker_lossless (List.replicate 4501 'a')
      (by simp only [List.length_replicate]; decide)⟩

/- ### C8 -/

/-- C8: for every input text longer than 4500 characters, the number of
chunks is `⌈length / 4500⌉`, every chunk except possibly the last has
length exactly 4500, and the last chunk has length `length % 4500`
(`4500` when the length is a multiple of 4500). -/
theorem claim_C8_chunk_count_and_sizes (s : Str) (hs : 4500 < s.length) :
    (chunkify 4500 s).length = (s.length + 4499) / 4500
    ∧ (∀ i (hi : i < (chunkify 4500 s).length), i + 1 < (chunkify 4500 s).length →
        (chunkify 4500 s)[i].length = 4500)
    ∧ ((chunkify 4500 s).getLast?).map List.length
        = some (if s.length % 4500 = 0 then 4500 else s.length % 4500) := by
  have hcount : (chunkify 4500 s).length = (s.length + 4499) / 4500 :=
    chunkify_count 4500 s
  refine ⟨hcount, ?_, ?_⟩
  · intro i hi hmid
    rw [chunkify_getElem 4500 s i hi, List.length_take, List.length_drop]
    rw [hcount] at hmid
    omega
  · have hpos : 0 < (chunkify 4500 s).length := by rw [hcount]; omega
    rw [List.getLast?_eq_getElem?,
      List.getElem?_eq_getElem (by omega : (chunkify 4500 s).length - 1 < (chunkify 4500 s).length),
      Option.map_some',
      chunkify_getElem 4500 s ((chunkify 4500 s).length - 1) (by omega),
      List.length_take, List.length_drop, hcount]
    by_cases hmod : s.length % 4500 = 0
    · rw [if_pos hmod]
      congr 1
      omega
    · rw [if_neg hmod]
      congr 1
      omega

/-- Witness for C8 at the concrete input of 4501 copies of `'a'`. -/
theorem claim_C8_chunk_count_and_sizes_witness :
    4500 < (List.replicate 4501 'a').length
    ∧ ((chunkify 4500 (List.replicate 4501 'a')).length
          = ((List.replicate 4501 'a').length + 4499) / 4500
      ∧ (∀ i (hi : i < (chunkify 4500 (List.replicate 4501 'a')).length),
          i + 1 < (chunkify 4500 (List.replicate 4501 'a')).length →
            (chunkify 4500 (List.replicate 4501 'a'))[i].length = 4500)
      ∧ ((chunkify 4500 (List.replicate 4501 'a')).getLast?).map List.length
          = some (if (List.replicate 4501 'a').length % 4500 = 0 then 4500
              else (List.replicate 4501 'a').length % 4500)) :=
  ⟨by simp only [List.length_replicate]; decide,
    claim_C8_chunk_count_and_sizes (List.replicate 4501 'a')
      (by simp only [List.length_replicate]; decide)⟩

/- ### C4 -/

/-- C4: for every non-blank input of length at most 4500 the chunker
yields exactly one segment, the whole input; `translate_text`
short-circuits, returning the translator's result on the full input,
and makes exactly one external call, on the full input. -/
theorem claim_C4_short_input_single_call (tr : Str → Except Str Str) (text t : Str)
    (hb : isBlank text = false) (hlen : text.length ≤ 4500)
    (ht : tr text = Except.ok t) :
    chunkify 4500 text = [text]
    ∧ translate_text tr text = t
    ∧ translateCalls tr text = [text] := by
  have hne : text ≠ [] := by
    intro h
    rw [h] at hb
    simp [isBlank] at hb
  refine ⟨chunkify_singleton 4500 (by omega) text hne hlen, ?_, ?_⟩
  · simp [translate_text, hb, hlen, ht]
  · simp [translateCalls, hb, hlen]

/-- Witness for C4 at the concrete input `"hi"` with a stub translator. -/
theorem claim_C4_short_input_single_call_witness :
    isBlank ['h', 'i'] = false
    ∧ (['h', 'i'] : Str).length ≤ 4500
    ∧ (chunkify 4500 ['h', 'i'] = [['h', 'i']]
      ∧ translate_text (fun _ => (Except.ok ['X'] : Except Str Str)) ['h', 'i'] = ['X']
      ∧ translateCalls (fun _ => (Except.ok ['X'] : Except Str Str)) ['h', 'i'] = [['h', 'i']]) :=
  ⟨by decide, by decide,
    claim_C4_short_input_single_call _ ['h', 'i'] ['X'] (by decide) (by decide) rfl⟩

/- ### C6 -/

/-- C6: on empty or whitespace-only input, `translate_text` returns the
fixed user-visible message (no crash is modelled: the function is
total) and no external translation call is made. -/
theorem claim_C6_blank_input_no_call (tr : Str → Except Str Str) (text : Str)
    (hb : isBlank text = true) :
    translate_text tr text = emptyMsg ∧ translateCalls tr text = [] := by
  constructor <;> simp [translate_text, translateCalls, hb]

/-- Witness for C6 at the concrete input `""`. -/
theorem claim_C6_blank_input_no_call_witness :
    isBlank [] = true
    ∧ (translate_text (fun _ => (Except.ok [] : Except Str Str)) [] = emptyMsg
      ∧ translateCalls (fun _ => (Except.ok [] : Except Str Str)) [] = []) :=
  ⟨rfl, claim_C6_blank_input_no_call _ [] rfl⟩

/- ### C9 -/

/-- C9: on empty or whitespace-only input `translate_text` returns the
fixed English string `"Please enter some text to translate."`, a plain
`Str` value of the same type as a successful translation; indeed a
translator whose successful output happens to be that very string makes
a successful run on `"hi"` produce the identical value, so the caller
cannot distinguish the two outcomes by type. -/
theorem claim_C9_blank_result_indistinguishable (tr : Str → Except Str Str)
    (text : Str) (hb : isBlank text = true) :
    translate_text tr text = emptyMsg
    ∧ translate_text (fun _ => (Except.ok emptyMsg : Except Str Str)) ['h', 'i']
        = emptyMsg := by
  refine ⟨by simp [translate_text, hb], ?_⟩
  rfl

/-- Witness for C9 at the concrete input `""`. -/
theorem claim_C9_blank_result_indistinguishable_witness :
    isBlank [] = true
    ∧ (translate_text (fun _ => (Except.error [] : Except Str Str)) [] = emptyMsg
      ∧ translate_text (fun _ => (Except.ok emptyMsg : Except Str Str)) ['h', 'i']
          = emptyMsg) :=
  ⟨rfl, claim_C9_blank_result_indistinguishable _ [] rfl⟩

/- ### Helpers for concrete witnesses -/

/-- A replicate of positive length is a nonempty list. -/
theorem replicate_ne_nil (n : Nat) (hn : 0 < n) (a : Char) :
    List.replicate n a ≠ [] := by
  intro h
  have h2 := congrArg List.length h
  simp at h2
  omega

/-- Head of a nonempty replicate. -/
theorem headD_replicate (n : Nat) (hn : 0 < n) (a d : Char) :
    (List.replicate n a).headD d = a := by
  cases n with
  | zero => omega
  | succ m => simp [List.replicate_succ]

/-- A replicate of a non-whitespace character is not blank. -/
theorem isBlank_replicate_false (n : Nat) (hn : 0 < n) (a : Char)
    (ha : a.isWhitespace = false) :
    isBlank (List.replicate n a) = false := by
  cases n with
  | zero => omega
  | succ m => simp [isBlank, List.all_replicate, ha]

/-- Chunk computation for a 9001-character input made of two full
4500-character blocks followed by one extra character. -/
theorem chunkify_two_blocks (x y : Str) (z : Char)
    (hx : x.length = 4500) (hy : y.length = 4500) :
    chunkify 4500 (x ++ (y ++ [z])) = [x, y, [z]] := by
  have hne1 : x ++ (y ++ [z]) ≠ [] := by
    intro h
    have h2 := congrArg List.length h
    simp [hx] at h2
  have hne2 : y ++ [z] ≠ [] := by
    intro h
    have h2 := congrArg List.length h
    simp [hy] at h2
  rw [chunkify_cons 4500 (by omega) _ hne1, List.take_left' hx, List.drop_left' hx,
      chunkify_cons 4500 (by omega) _ hne2, List.take_left' hy, List.drop_left' hy,
      chunkify_cons 4500 (by omega) [z] (by simp),
      List.take_of_length_le (by simp), List.drop_eq_nil_of_le (by simp),
      chunkify_nil]

/-- Stub translator used in the C2 witness: succeeds (with output "T")
on chunks starting with 'a', raises (with message "E") otherwise. -/
def stubTr : Str → Except Str Str :=
  fun s => if s.headD ' ' = 'a' then Except.ok ['T'] else Except.error ['E']

/- ### C2 -/

/-- In the sequential loop, the first failing call aborts everything:
if every non-blank chunk before `c` succeeds, `c` is non-blank and the
translator raises on `c`, then the loop result is the error (whatever
the earlier successful values `f c'` were, and whatever follows in
`post`), and the calls made are exactly the non-blank chunks before `c`
followed by the failing call on `c` - nothing after `c` is called. -/
theorem translateChunks_first_error (tr : Str → Except Str Str) (f : Str → Str)
    (pre post : List Str) (c e : Str)
    (hpre : ∀ c' ∈ pre, isBlank c' = false → tr c' = Except.ok (f c'))
    (hc : isBlank c = false) (he : tr c = Except.error e) :
    translateChunks tr (pre ++ c :: post) = Except.error e
    ∧ chunksCalls tr (pre ++ c :: post) = (pre.filter fun x => !isBlank x) ++ [c] := by
  induction pre with
  | nil =>
    simp [translateChunks, chunksCalls, hc, he]
  | cons p ps ih =>
    obtain ⟨ih1, ih2⟩ := ih fun c' h' => hpre c' (List.mem_cons_of_mem _ h')
    cases hbp : isBlank p with
    | true =>
      simp [translateChunks, chunksCalls, List.filter_cons, hbp, ih1, ih2]
    | false =>
      have hp := hpre p (List.mem_cons_self _ _) hbp
      simp [translateChunks, chunksCalls, List.filter_cons, hbp, hp, ih1, ih2]

/-- C2: if the translation of any segment fails, the whole operation
fails with the error string (the code's representation of a
`TranslationServiceError`) and no partial output is returned.  Both
pipeline paths are covered.  Chunked path: for any input longer than
4500 characters whose chunks split as `pre ++ c :: post` - `c` the
first failing segment, at any position, with any number of chunks
before or after it - where the translator succeeds on every non-blank
chunk of `pre` (with arbitrary values `f c'`) and raises on the
non-blank chunk `c`, the output is exactly the error string
(independent of `f`: the earlier successful translations are discarded,
not leaked) and the translator is called only on the non-blank chunks
of `pre` and on `c`; no segment of `post` is translated (fail-fast).
Single-call path: for any non-blank input of length at most 4500 on
which the translator raises, the output is exactly the error string
after the one failing call. -/
theorem claim_C2_fail_fast (tr : Str → Except Str Str) (f : Str → Str)
    (text short : Str) (pre post : List Str) (c e e' : Str)
    (hb : isBlank text = false) (hlen : 4500 < text.length)
    (hsplit : chunkify 4500 text = pre ++ c :: post)
    (hpre : ∀ c' ∈ pre, isBlank c' = false → tr c' = Except.ok (f c'))
    (hc : isBlank c = false) (he : tr c = Except.error e)
    (hbs : isBlank short = false) (hls : short.length ≤ 4500)
    (hes : tr short = Except.error e') :
    (translate_text tr text = errMsg e
      ∧ translateCalls tr text = (pre.filter fun x => !isBlank x) ++ [c])
    ∧ (translate_text tr short = errMsg e'
      ∧ translateCalls tr short = [short]) := by
  obtain ⟨hloop, hcalls⟩ := translateChunks_first_error tr f pre post c e hpre hc he
  have hnle : ¬(text.length ≤ max_length) := by
    simp only [max_length_eq]
    omega
  have hle : short.length ≤ max_length := by
    simp only [max_length_eq]
    exact hls
  refine ⟨⟨?_, ?_⟩, ?_, ?_⟩
  · rw [translate_text, if_neg (by simp [hb]), if_neg hnle, max_length_eq,
      hsplit, hloop]
  · rw [translateCalls, if_neg (by simp [hb]), if_neg hnle, max_length_eq,
      hsplit, hcalls]
  · rw [translate_text, if_neg (by simp [hbs]), if_pos hle, hes]
  · rw [translateCalls, if_neg (by simp [hbs]), if_pos hle]

/-- Witness for C2: a 9001-character text of 4500 copies of 'a', then
4500 copies of 'b', then 'c': the stub translator succeeds on the first
chunk and raises on the second (so `pre = [4500 copies of 'a']`,
`c = 4500 copies of 'b'`, `post = ["c"]`); and the one-character
non-blank input "b" of the single-call path, on which the stub
translator also raises. -/
theorem claim_C2_fail_fast_witness :
    isBlank (List.replicate 4500 'a' ++ (List.replicate 4500 'b' ++ ['c'])) = false
    ∧ 4500 < (List.replicate 4500 'a' ++ (List.replicate 4500 'b' ++ ['c'])).length
    ∧ chunkify 4500 (List.replicate 4500 'a' ++ (List.replicate 4500 'b' ++ ['c']))
        = [List.replicate 4500 'a'] ++ List.replicate 4500 'b' :: [['c']]
    ∧ (∀ c' ∈ [List.replicate 4500 'a'], isBlank c' = false →
        stubTr c' = Except.ok ((fun _ => ['T']) c'))
    ∧ isBlank (List.replicate 4500 'b') = false
    ∧ stubTr (List.replicate 4500 'b') = Except.error ['E']
    ∧ isBlank ['b'] = false
    ∧ (['b'] : Str).length ≤ 4500
    ∧ stubTr ['b'] = Except.error ['E']
    ∧ ((translate_text stubTr (List.replicate 4500 'a' ++ (List.replicate 4500 'b' ++ ['c']))
          = errMsg ['E']
        ∧ translateCalls stubTr (List.replicate 4500 'a' ++ (List.replicate 4500 'b' ++ ['c']))
            = (([List.replicate 4500 'a'] : List Str).filter fun x => !isBlank x) ++ [List.replicate 4500 'b'])
      ∧ (translate_text stubTr ['b'] = errMsg ['E']
        ∧ translateCalls stubTr ['b'] = [['b']])) := by
  have htext : isBlank (List.replicate 4500 'a' ++ (List.replicate 4500 'b' ++ ['c'])) = false := by
    simp only [isBlank, List.all_append, List.all_replicate]
    decide
  have hlen : 4500 < (List.replicate 4500 'a' ++ (List.replicate 4500 'b' ++ ['c'])).length := by
    simp only [List.length_append, List.length_replicate, List.length_cons,
      List.length_nil]
    decide
  have hsplit : chunkify 4500 (List.replicate 4500 'a' ++ (List.replicate 4500 'b' ++ ['c']))
      = [List.replicate 4500 'a'] ++ List.replicate 4500 'b' :: [['c']] :=
    chunkify_two_blocks (List.replicate 4500 'a') (List.replicate 4500 'b') 'c'
      (by rw [List.length_replicate]) (by rw [List.length_replicate])
  have h0 : stubTr (List.replicate 4500 'a') = Except.ok ['T'] := by
    rw [stubTr, headD_replicate 4500 (by omega), if_pos rfl]
  have hpre : ∀ c' ∈ [List.replicate 4500 'a'], isBlank c' = false →
      stubTr c' = Except.ok ((fun _ => ['T']) c') := by
    intro c' hc' _
    rw [List.mem_singleton] at hc'
    subst hc'
    exact h0
  have hb1 : isBlank (List.replicate 4500 'b') = false :=
    isBlank_replicate_false 4500 (by omega) 'b' (by decide)
  have h1 : stubTr (List.replicate 4500 'b') = Except.error ['E'] := by
    rw [stubTr, headD_replicate 4500 (by omega), if_neg (by decide)]
  have hbs : isBlank ['b'] = false := by decide
  have hls : (['b'] : Str).length ≤ 4500 := by decide
  have hes : stubTr ['b'] = Except.error ['E'] := by
    rw [stubTr, if_neg (by decide)]
  exact ⟨htext, hlen, hsplit, hpre, hb1, h1, hbs, hls, hes,
    claim_C2_fail_fast stubTr (fun _ => ['T'])
      (List.replicate 4500 'a' ++ (List.replicate 4500 'b' ++ ['c'])) ['b']
      [List.replicate 4500 'a'] [['c']] (List.replicate 4500 'b') ['E'] ['E']
      htext hlen hsplit hpre hb1 h1 hbs hls hes⟩

/- ### C3 -/

/-- The chunks of 9000 copies of 'a': two full 4500-character chunks. -/
theorem chunkify_replicate_9000 :
    chunkify 4500 (List.replicate 9000 'a')
      = [List.replicate 4500 'a', List.replicate 4500 'a'] := by
  have h1 : (9000 : Nat) - 4500 = 4500 := by omega
  have h2 : min 4500 9000 = 4500 := by omega
  have h3 : min 4500 4500 = 4500 := by omega
  have h4 : (4500 : Nat) - 4500 = 0 := by omega
  rw [chunkify_cons 4500 (by omega) _ (replicate_ne_nil 9000 (by omega) 'a'),
      List.take_replicate, h2, List.drop_replicate, h1,
      chunkify_cons 4500 (by omega) _ (replicate_ne_nil 4500 (by omega) 'a'),
      List.take_replicate, h3, List.drop_replicate, h4, List.replicate_zero,
      chunkify_nil]

/-- Evaluation of the pipeline on 9000 copies of 'a' with the stub
translator that maps every chunk to "X": the two chunk translations are
joined with a single space. -/
theorem translate_replicate_9000 :
    translate_text (fun _ => (Except.ok ['X'] : Except Str Str))
        (List.replicate 9000 'a')
      = ['X', ' ', 'X'] := by
  have hb : isBlank (List.replicate 9000 'a') = false :=
    isBlank_replicate_false 9000 (by omega) 'a' (by decide)
  have hba : isBlank (List.replicate 4500 'a') = false :=
    isBlank_replicate_false 4500 (by omega) 'a' (by decide)
  have hnle : ¬((List.replicate 9000 'a').length ≤ max_length) := by
    simp only [List.length_replicate, max_length_eq]
    omega
  have hloop : translateChunks (fun _ => (Except.ok ['X'] : Except Str Str))
      [List.replicate 4500 'a', List.replicate 4500 'a']
      = Except.ok [['X'], ['X']] := by
    have hfil : ([List.replicate 4500 'a', List.replicate 4500 'a'] : List Str).filter
        (fun c => !isBlank c) = [List.replicate 4500 'a', List.replicate 4500 'a'] := by
      rw [List.filter_cons_of_pos
            (by show (!isBlank (List.replicate 4500 'a')) = true; rw [hba]; rfl),
          List.filter_cons_of_pos
            (by show (!isBlank (List.replicate 4500 'a')) = true; rw [hba]; rfl),
          List.filter_nil]
    have h := (translateChunks_all_ok (fun _ => (Except.ok ['X'] : Except Str Str))
        (fun _ => ['X']) [List.replicate 4500 'a', List.replicate 4500 'a']
        (fun c _ _ => rfl)).1
    rw [hfil] at h
    exact h
  rw [translate_text, if_neg (by simp only [hb]; decide), if_neg hnle,
      max_length_eq, chunkify_replicate_9000, hloop]
  decide

/-- C3 counterexample: for 9000 copies of 'a' and a translator mapping
every chunk to the stub "X", the output of `translate_text` is not
`"X\nX"` - the code joins with `" ".join(translated)` (src/app.py line
74), not a newline. -/
theorem claim_C3_counterexample_newline_join :
    translate_text (fun _ => (Except.ok ['X'] : Except Str Str))
        (List.replicate 9000 'a')
      ≠ "X\nX".data := by
  rw [translate_replicate_9000]
  decide

/-- C3 (amended): in document (chunked) mode, translated segments are
joined in index order using a single-space separator: for an input of
9000 characters of 'a' with `L = 4500` there are exactly 2 segments of
4500 characters each, and if the translator maps each chunk to the
fixed stub "X", the output equals `"X X"`. -/
theorem claim_C3_amended_space_join :
    (chunkify 4500 (List.replicate 9000 'a')).length = 2
    ∧ (∀ c ∈ chunkify 4500 (List.replicate 9000 'a'), c.length = 4500)
    ∧ translate_text (fun _ => (Except.ok ['X'] : Except Str Str))
        (List.replicate 9000 'a')
        = "X X".data := by
  refine ⟨?_, ?_, ?_⟩
  · rw [chunkify_replicate_9000]
    rfl
  · intro c hc
    rw [chunkify_replicate_9000] at hc
    simp only [List.mem_cons, List.not_mem_nil, or_false] at hc
    rcases hc with rfl | rfl <;> rw [List.length_replicate]
  · rw [translate_replicate_9000]

/- ### C5 -/

/-- C5: for every chunked input (longer than 4500 characters), blank
(whitespace-only) chunks are skipped: no translation call is made for
them and no translated segment is emitted for them, while the non-blank
chunks are translated and joined in their original relative order. -/
theorem claim_C5_blank_chunks_skipped (tr : Str → Except Str Str) (f : Str → Str)
    (text : Str) (hb : isBlank text = false) (hlen : 4500 < text.length)
    (h : ∀ c ∈ chunkify 4500 text, isBlank c = false → tr c = Except.ok (f c)) :
    translate_text tr text
        = List.intercalate " ".data
            (((chunkify 4500 text).filter fun c => !isBlank c).map f)
    ∧ translateCalls tr text = (chunkify 4500 text).filter fun c => !isBlank c := by
  obtain ⟨h1, h2⟩ := translateChunks_all_ok tr f (chunkify 4500 text) h
  have hnle : ¬(text.length ≤ max_length) := by
    simp only [max_length_eq]
    omega
  constructor
  · rw [translate_text, if_neg (by simp [hb]), if_neg hnle, max_length_eq, h1]
  · rw [translateCalls, if_neg (by simp [hb]), if_neg hnle, max_length_eq, h2]

/-- Stub translator used in the C5 witness: translate a chunk to its
first character (so segment order is observable in the output). -/
def headTr : Str → Except Str Str := fun s => Except.ok [s.headD 'z']

/-- Witness for C5: a 9001-character text whose middle chunk is 4500
spaces (blank); the blank chunk is neither translated nor emitted. -/
theorem claim_C5_blank_chunks_skipped_witness :
    isBlank (List.replicate 4500 'a' ++ (List.replicate 4500 ' ' ++ ['b'])) = false
    ∧ 4500 < (List.replicate 4500 'a' ++ (List.replicate 4500 ' ' ++ ['b'])).length
    ∧ (∀ c ∈ chunkify 4500 (List.replicate 4500 'a' ++ (List.replicate 4500 ' ' ++ ['b'])),
        isBlank c = false → headTr c = Except.ok [c.headD 'z'])
    ∧ (translate_text headTr (List.replicate 4500 'a' ++ (List.replicate 4500 ' ' ++ ['b']))
        = List.intercalate " ".data
            (((chunkify 4500 (List.replicate 4500 'a' ++ (List.replicate 4500 ' ' ++ ['b']))).filter
                fun c => !isBlank c).map fun s => [s.headD 'z'])
      ∧ translateCalls headTr (List.replicate 4500 'a' ++ (List.replicate 4500 ' ' ++ ['b']))
          = (chunkify 4500 (List.replicate 4500 'a' ++ (List.replicate 4500 ' ' ++ ['b']))).filter
              fun c => !isBlank c) := by
  have hb : isBlank (List.replicate 4500 'a' ++ (List.replicate 4500 ' ' ++ ['b'])) = false := by
    simp only [isBlank, List.all_append, List.all_replicate]
    decide
  have hlen : 4500 < (List.replicate 4500 'a' ++ (List.replicate 4500 ' ' ++ ['b'])).length := by
    simp only [List.length_append, List.length_replicate, List.length_cons,
      List.length_nil]
    decide
  have h : ∀ c ∈ chunkify 4500 (List.replicate 4500 'a' ++ (List.replicate 4500 ' ' ++ ['b'])),
      isBlank c = false → headTr c = Except.ok [c.headD 'z'] :=
    fun c _ _ => rfl
  exact ⟨hb, hlen, h,
    claim_C5_blank_chunks_skipped headTr (fun s => [s.headD 'z']) _ hb hlen h⟩

/- ### C7: the tab-1 guard and extraction errors -/

/-- The tab-1 translation guard (src/app.py line 242):
`not extracted.startswith("Error") and not extracted.startswith("No text")`;
when it is `true`, the extracted string is passed to `translate_text`. -/
def tab1ShouldTranslate (extracted : Str) : Bool :=
  !("Error".data.isPrefixOf extracted) && !("No text".data.isPrefixOf extracted)

/-- The string built by `extract_text`'s `except` clause,
`f"Extraction Error: {str(e)}"` (src/app.py line 131). -/
def extractionErrorMsg (e : Str) : Str := "Extraction Error: ".data ++ e

/-- C7 (code bug): an extraction failure yields the string
`"Extraction Error: …"`, which starts with `"Extraction"`, not
`"Error"`, so the tab-1 guard lets it through and the pipeline invokes
the external translator on the error message instead of passing the
extraction error to the caller untranslated: at the failing input
`str(e) = "boom"` the guard evaluates to `true` and the translator is
called on the full error string. -/
theorem claim_C7_extraction_error_gets_translated :
    tab1ShouldTranslate (extractionErrorMsg "boom".data) = true
    ∧ translateCalls (fun s => (Except.ok s : Except Str Str))
        (extractionErrorMsg "boom".data)
        = [extractionErrorMsg "boom".data] := by
  constructor
  · decide
  · decide

/- ### C10: the shape of extract_text results -/

/-- Python `str.strip()`: remove leading and trailing whitespace. -/
def pyStrip (s : Str) : Str :=
  List.rdropWhile Char.isWhitespace (s.dropWhile Char.isWhitespace)

/-- The file extensions handled by `extract_text` (src/app.py lines
87-123). -/
def supportedExts : List Str :=
  [".txt".data, ".pdf".data, ".docx".data, ".jpg".data, ".jpeg".data,
    ".png".data, ".bmp".data, ".tiff".data]

/-- `"No text found in file."` (src/app.py line 128). -/
def noTextMsg : Str := "No text found in file.".data

/-- `f"Unsupported file type: {file_ext}"` (src/app.py line 126). -/
def unsupportedMsg (ext : Str) : Str := "Unsupported file type: ".data ++ ext

/-- The return path of `extract_text` (src/app.py lines 125-131), with
the external extraction libraries abstracted away: `ext` is the
lower-cased file extension, `raw` is the text accumulated by the
matching extraction branch, and `exc = some e` models an exception with
message `e` raised anywhere inside the `try` block. -/
def extract_text_model (ext raw : Str) (exc : Option Str) : Str :=
  match exc with
  | some e => extractionErrorMsg e
  | none =>
    if supportedExts.contains ext then
      if (pyStrip raw).isEmpty then noTextMsg else pyStrip raw
    else unsupportedMsg ext

/-- A nonempty string-literal head makes an appended list nonempty. -/
theorem append_data_ne_nil (w : String) (hw : w.data ≠ []) (e : Str) :
    w.data ++ e ≠ [] := by
  intro h
  rcases List.append_eq_nil.mp h with ⟨h1, _⟩
  exact hw h1

/-- A stripped string has no leading whitespace. -/
theorem pyStrip_no_leading (s : Str) :
    (pyStrip s).dropWhile Char.isWhitespace = pyStrip s := by
  cases hps : pyStrip s with
  | nil => rfl
  | cons c cs =>
    obtain ⟨t, ht⟩ :=
      List.rdropWhile_prefix Char.isWhitespace (s.dropWhile Char.isWhitespace)
    have ht2 : pyStrip s ++ t = s.dropWhile Char.isWhitespace := ht
    rw [hps] at ht2
    have hh := List.head?_dropWhile_not Char.isWhitespace s
    rw [← ht2] at hh
    simp only [List.cons_append, List.head?_cons] at hh
    simp [List.dropWhile_cons, hh]

/-- A stripped string has no trailing whitespace. -/
theorem pyStrip_no_trailing (s : Str) :
    List.rdropWhile Char.isWhitespace (pyStrip s) = pyStrip s :=
  List.rdropWhile_idempotent Char.isWhitespace (s.dropWhile Char.isWhitespace)

/-- Stripping a whitespace-only string yields the empty string. -/
theorem pyStrip_all_whitespace (s : Str)
    (h : ∀ c ∈ s, Char.isWhitespace c = true) : pyStrip s = [] := by
  have h1 : s.dropWhile Char.isWhitespace = [] :=
    List.dropWhile_eq_nil_iff.mpr fun x hx => h x hx
  rw [pyStrip, h1, List.rdropWhile_nil]

/-- C10: `extract_text` never returns the empty string: an exception
yields the `"Extraction Error: …"` string; a supported extension with
non-blank extracted text returns the whitespace-stripped text (no
leading and no trailing whitespace, nonempty); a supported extension
with blank extracted text returns the fixed sentinel
`"No text found in file."`; an unsupported extension returns a string
beginning `"Unsupported file type:"`. -/
theorem claim_C10_extract_text_result_shape (ext0 raw0 ext raw ext' : Str)
    (exc0 : Option Str)
    (hsupp : supportedExts.contains ext = true)
    (hne : (pyStrip raw).isEmpty = false)
    (hun : supportedExts.contains ext' = false) :
    extract_text_model ext0 raw0 exc0 ≠ []
    ∧ extract_text_model ext raw none = pyStrip raw
    ∧ (pyStrip raw).dropWhile Char.isWhitespace = pyStrip raw
    ∧ List.rdropWhile Char.isWhitespace (pyStrip raw) = pyStrip raw
    ∧ extract_text_model ext (raw0.filter Char.isWhitespace) none = noTextMsg
    ∧ "Unsupported file type:".data.isPrefixOf (extract_text_model ext' raw0 none)
        = true := by
  refine ⟨?_, ?_, pyStrip_no_leading raw, pyStrip_no_trailing raw, ?_, ?_⟩
  · cases exc0 with
    | some e =>
      exact append_data_ne_nil "Extraction Error: " (by decide) e
    | none =>
      show (if supportedExts.contains ext0 then
              if (pyStrip raw0).isEmpty then noTextMsg else pyStrip raw0
            else unsupportedMsg ext0) ≠ []
      by_cases h1 : supportedExts.contains ext0 = true
      · rw [if_pos h1]
        by_cases h2 : (pyStrip raw0).isEmpty = true
        · rw [if_pos h2]
          decide
        · rw [if_neg h2]
          intro h3
          apply h2
          rw [h3]
          rfl
      · rw [if_neg h1]
        exact append_data_ne_nil "Unsupported file type: " (by decide) ext0
  · show (if supportedExts.contains ext then
            if (pyStrip raw).isEmpty then noTextMsg else pyStrip raw
          else unsupportedMsg ext) = pyStrip raw
    rw [if_pos hsupp, if_neg (by simp only [hne]; decide)]
  · have hall : ∀ c ∈ raw0.filter Char.isWhitespace, Char.isWhitespace c = true :=
      fun c hc => (List.mem_filter.mp hc).2
    have hstrip := pyStrip_all_whitespace _ hall
    show (if supportedExts.contains ext then
            if (pyStrip (raw0.filter Char.isWhitespace)).isEmpty then noTextMsg
            else pyStrip (raw0.filter Char.isWhitespace)
          else unsupportedMsg ext) = noTextMsg
    rw [if_pos hsupp, hstrip]
    rfl
  · have hmodel : extract_text_model ext' raw0 none = unsupportedMsg ext' := by
      show (if supportedExts.contains ext' then
              if (pyStrip raw0).isEmpty then noTextMsg else pyStrip raw0
            else unsupportedMsg ext') = unsupportedMsg ext'
      rw [if_neg (by simp only [hun]; decide)]
    rw [hmodel, unsupportedMsg, List.isPrefixOf_iff_prefix]
    exact (show "Unsupported file type:".data <+: "Unsupported file type: ".data by
      decide).trans (List.prefix_append _ _)

/-- Witness for C10 at concrete extensions and contents. -/
theorem claim_C10_extract_text_result_shape_witness :
    supportedExts.contains ".txt".data = true
    ∧ (pyStrip "hi".data).isEmpty = false
    ∧ supportedExts.contains ".xyz".data = false
    ∧ (extract_text_model ".pdf".data " a ".data none ≠ []
      ∧ extract_text_model ".txt".data "hi".data none = pyStrip "hi".data
      ∧ (pyStrip "hi".data).dropWhile Char.isWhitespace = pyStrip "hi".data
      ∧ List.rdropWhile Char.isWhitespace (pyStrip "hi".data) = pyStrip "hi".data
      ∧ extract_text_model ".txt".data (" a ".data.filter Char.isWhitespace) none
          = noTextMsg
      ∧ "Unsupported file type:".data.isPrefixOf
          (extract_text_model ".xyz".data " a ".data none) = true) :=
  ⟨by decide, by decide, by decide,
    claim_C10_extract_text_result_shape ".pdf".data " a ".data ".txt".data
      "hi".data ".xyz".data none (by decide) (by decide) (by decide)⟩
